import Mathlib

/-!
Verification of the sudatas document database against its specification.

Each section shallowly embeds one component of the Go source:
pure functions become Lean functions, stateful methods become explicit
state-passing functions, machine integers become `Nat` with explicit
`% 2^w` where overflow matters, and fallible code returns `Option` or
`Except`.  External library primitives (the SM4 block cipher, JSON
decoding, float parsing) are passed in as function parameters, since the
repository only calls them through their interfaces.
-/

namespace Sudatas

/-! ### Crypto manager (internal/security/crypto.go)

`EncryptSM4`/`DecryptSM4` call `sm4.NewCipher` and then the `cipher.Block`
interface `Encrypt`/`Decrypt`, which process exactly one 16-byte block
(the first block of `src` into the first block of `dst`); the remaining
bytes of the freshly allocated `dst` buffer stay zero.  The block cipher
itself is external, so it is a parameter `E`/`D` on 16-byte blocks.
Bytes are `Nat` (values < 256 on real inputs). -/

/-- `EncryptSM4`: append `p` bytes of value `p` where
`p = 16 - len(data) % 16`, then `block.Encrypt(ciphertext, data)`:
only the first 16-byte block is encrypted, the rest of the allocated
ciphertext buffer remains zero. -/
def encryptSM4 (E : List Nat → List Nat) (data : List Nat) : List Nat :=
  let padding := 16 - data.length % 16
  let padded := data ++ List.replicate padding padding
  E (padded.take 16) ++ List.replicate (padded.length - 16) 0

/-- The buffer produced by `block.Decrypt(plaintext, ciphertext)`:
only the first block is decrypted, the rest of `plaintext` stays zero. -/
def decryptPlain (D : List Nat → List Nat) (ct : List Nat) : List Nat :=
  D (ct.take 16) ++ List.replicate (ct.length - 16) 0

/-- `plaintext[len(plaintext)-1]`, the byte read as the padding length. -/
def lastByte (l : List Nat) : Nat := l.getLastD 0

/-- `DecryptSM4`: `block.Decrypt` into a same-length buffer, then strip
`plaintext[len-1]` bytes of padding.  `none` models the two runtime
panics of the Go code: reading a 16-byte block (or `plaintext[len-1]`)
from a buffer shorter than a block, and the slice `plaintext[:len-padding]`
when the padding byte exceeds the buffer length. -/
def decryptSM4 (D : List Nat → List Nat) (ct : List Nat) : Option (List Nat) :=
  if ct.length < 16 then none
  else
    let pt := decryptPlain D ct
    let padding := lastByte pt
    if pt.length < padding then none
    else some (pt.take (pt.length - padding))

/-! ### Wire codec (internal/protocol/protocol.go)

Frames are a big-endian `{length : u32, type : u32}` header followed by
the payload bytes.  Lengths are Go `int`s truncated to `uint32` on
encode, so the truncation `% 2^32` is explicit. -/

/-- A protocol message: `Type` is a `uint32` (`0=Auth, 1=Query, 2=Result,
3=Error`), `Payload` raw bytes. -/
structure Message where
  mtype : Nat
  payload : List Nat
deriving DecidableEq

/-- Big-endian `uint32` encoding, as written by `binary.Write`. -/
def u32be (n : Nat) : List Nat :=
  [n / 2 ^ 24 % 256, n / 2 ^ 16 % 256, n / 2 ^ 8 % 256, n % 256]

/-- Big-endian `uint32` decoding of the first four bytes. -/
def readU32 (bs : List Nat) : Nat :=
  bs.getD 0 0 * 2 ^ 24 + bs.getD 1 0 * 2 ^ 16 + bs.getD 2 0 * 2 ^ 8 + bs.getD 3 0

/-- `EncodeMessage`: header `{uint32(len(payload)), uint32(type)}` then the
payload bytes. -/
def encodeMessage (m : Message) : List Nat :=
  u32be (m.payload.length % 2 ^ 32) ++ u32be (m.mtype % 2 ^ 32) ++ m.payload

/-- `DecodeMessage`: reject inputs shorter than 8 bytes, read the header,
reject when `uint32(len(data)-8) < header.Length`, and return
`data[8 : 8+header.Length]`. -/
def decodeMessage (data : List Nat) : Option Message :=
  if data.length < 8 then none
  else
    let len := readU32 (data.take 4)
    let ty := readU32 ((data.drop 4).take 4)
    if (data.length - 8) % 2 ^ 32 < len then none
    else some ⟨ty, (data.drop 8).take len⟩

end Sudatas

namespace Sudatas

/-! ## C1: SM4 padding round trip -/

/-- C1 (code bug): for any block cipher pair `E`, `D` that invert each other
on the single block the code actually encrypts, `DecryptSM4 ∘ EncryptSM4`
on a 16-byte input returns the input followed by 16 zero bytes, not the
input: only the first block of the padded buffer is ever encrypted or
decrypted, the second (all-padding) block of the ciphertext is left as
zeros, and the decrypted buffer then ends in a zero byte, so no padding is
stripped. -/
theorem c1_sm4_roundtrip_breaks (E D : List Nat → List Nat) (data : List Nat)
    (hlen : data.length = 16) (hE : (E data).length = 16)
    (hED : D (E data) = data) :
    decryptSM4 D (encryptSM4 E data) = some (data ++ List.replicate 16 0) ∧
      decryptSM4 D (encryptSM4 E data) ≠ some data := by
  have htake : (data ++ List.replicate 16 16).take 16 = data := by
    rw [List.take_append_of_le_length (by omega), List.take_of_length_le (by omega)]
  have hpad : (16 : Nat) - data.length % 16 = 16 := by omega
  have henc : encryptSM4 E data = E data ++ List.replicate 16 0 := by
    simp only [encryptSM4, hpad, List.length_append, List.length_replicate, hlen, htake]
  have hctlen : (E data ++ List.replicate 16 0).length = 32 := by
    simp [hE]
  have hcttake : (E data ++ List.replicate 16 0).take 16 = E data := by
    rw [List.take_append_of_le_length (by omega), List.take_of_length_le (by omega)]
  have hpt : decryptPlain D (E data ++ List.replicate 16 0) =
      data ++ List.replicate 16 0 := by
    simp only [decryptPlain, hctlen, hcttake, hED]
  have hptlen : (data ++ List.replicate 16 0).length = 32 := by simp [hlen]
  have hrep : (List.replicate 16 (0 : Nat)).getLast? = some 0 := by decide
  have hlast : lastByte (data ++ List.replicate 16 0) = 0 := by
    unfold lastByte
    rw [List.getLastD_eq_getLast?, List.getLast?_append, hrep]
    rfl
  have key : decryptSM4 D (E data ++ List.replicate 16 0) =
      some (data ++ List.replicate 16 0) := by
    unfold decryptSM4
    rw [hctlen, if_neg (by norm_num)]
    simp only [hpt, hlast, hptlen]
    rw [if_neg (by norm_num)]
    rw [List.take_of_length_le (by omega)]
  constructor
  · rw [henc, key]
  · rw [henc, key]
    intro h
    have hinj := congrArg (fun o => (Option.getD o []).length) h
    simp only [Option.getD_some, List.length_append, List.length_replicate, hlen] at hinj
    omega

/-- Witness for C1 at the concrete failing input: sixteen zero bytes,
with the identity as the (invertible) block cipher. -/
theorem c1_sm4_roundtrip_breaks_witness :
    decryptSM4 id (encryptSM4 id (List.replicate 16 0)) =
        some (List.replicate 16 0 ++ List.replicate 16 0) ∧
      decryptSM4 id (encryptSM4 id (List.replicate 16 0)) ≠
        some (List.replicate 16 0) :=
  c1_sm4_roundtrip_breaks id id (List.replicate 16 0) (by decide) (by decide)
    (by decide)

/-! ## C9: DecryptSM4 is not total -/

/-- C9 (confirmed): `DecryptSM4` fails (panics in Go) exactly on the empty
and short inputs, where reading a block and `plaintext[len-1]` is out of
bounds, and on inputs whose decrypted final byte exceeds the buffer
length, where `plaintext[:len-padding]` is out of range; nothing guards
these reads.  Stated for every block cipher `D`, together with a concrete
oversized-padding input under the identity cipher. -/
theorem c9_decryptSM4_not_total :
    (∀ D : List Nat → List Nat, decryptSM4 D [] = none) ∧
      (decryptSM4 id (List.replicate 15 0 ++ [255]) = none) ∧
      (∀ (D : List Nat → List Nat) (ct : List Nat),
        decryptSM4 D ct = none ↔
          ct.length < 16 ∨ (decryptPlain D ct).length < lastByte (decryptPlain D ct)) := by
  refine ⟨fun D => rfl, by decide, fun D ct => ?_⟩
  unfold decryptSM4
  by_cases h : ct.length < 16
  · simp [h]
  · simp only [h, if_false]
    by_cases h2 : (decryptPlain D ct).length < lastByte (decryptPlain D ct)
    · simp [h2]
    · simp [h2, h]

/-! ## C8: frame round trip -/

theorem readU32_u32be (n : Nat) (h : n < 2 ^ 32) : readU32 (u32be n) = n := by
  simp only [readU32, u32be, List.getD_cons_zero, List.getD_cons_succ]
  omega

/-- A payload of exactly `2^32` bytes encodes with a zero length field and
therefore decodes with an empty payload. -/
theorem decode_encode_truncated (p : List Nat) (hp : p.length = 2 ^ 32) :
    decodeMessage (encodeMessage ⟨0, p⟩) = some ⟨0, []⟩ := by
  have hmod : p.length % 2 ^ 32 = 0 := by rw [hp, Nat.mod_self]
  have henc : encodeMessage ⟨0, p⟩ = [0, 0, 0, 0, 0, 0, 0, 0] ++ p := by
    simp only [encodeMessage]
    rw [hmod]
    rfl
  rw [henc]
  have hl : (([0, 0, 0, 0, 0, 0, 0, 0] : List Nat) ++ p).length = 8 + 2 ^ 32 := by
    rw [List.length_append, hp]
    rfl
  have htk : (([0, 0, 0, 0, 0, 0, 0, 0] : List Nat) ++ p).take 4 = [0, 0, 0, 0] := by
    rw [List.take_append_of_le_length (by norm_num)]
    rfl
  have hdr4 : ((([0, 0, 0, 0, 0, 0, 0, 0] : List Nat) ++ p).drop 4).take 4 =
      [0, 0, 0, 0] := by
    rw [List.drop_append_of_le_length (by norm_num)]
    rfl
  have h0 : readU32 [0, 0, 0, 0] = 0 := by decide
  unfold decodeMessage
  rw [hl, if_neg (by omega), htk, hdr4, h0, if_neg (by omega), List.take_zero]

/-- C8 counterexample: a message whose payload holds `2^32` bytes decodes
back with an empty payload, because `EncodeMessage` stores
`uint32(len(payload))`, which truncates to `0`. -/
theorem c8_frame_roundtrip_counterexample :
    decodeMessage (encodeMessage ⟨0, List.replicate (2 ^ 32) 7⟩) ≠
      some ⟨0, List.replicate (2 ^ 32) 7⟩ := by
  rw [decode_encode_truncated (List.replicate (2 ^ 32) 7) (List.length_replicate _ _)]
  intro h
  have hpay := congrArg Message.payload (Option.some.inj h)
  have hln := congrArg List.length hpay
  rw [List.length_replicate, List.length_nil] at hln
  omega

/-- C8 (amended): `DecodeMessage (EncodeMessage m) = m` for every message
whose type and payload length fit in `uint32` (the type field always does
in Go; a payload of at least `2^32` bytes truncates, see the
counterexample). -/
theorem c8_frame_roundtrip (m : Message) (ht : m.mtype < 2 ^ 32)
    (hp : m.payload.length < 2 ^ 32) :
    decodeMessage (encodeMessage m) = some m := by
  obtain ⟨ty, p⟩ := m
  have hlen : p.length % 2 ^ 32 = p.length := Nat.mod_eq_of_lt hp
  have hty : ty % 2 ^ 32 = ty := Nat.mod_eq_of_lt ht
  have henc : encodeMessage ⟨ty, p⟩ =
      (p.length / 2 ^ 24 % 256) :: (p.length / 2 ^ 16 % 256) ::
      (p.length / 2 ^ 8 % 256) :: (p.length % 256) ::
      (ty / 2 ^ 24 % 256) :: (ty / 2 ^ 16 % 256) ::
      (ty / 2 ^ 8 % 256) :: (ty % 256) :: p := by
    simp only [encodeMessage, u32be, hlen, hty, List.cons_append, List.nil_append]
  rw [henc]
  unfold decodeMessage
  rw [if_neg (by simp)]
  simp only [List.take_succ_cons, List.take_zero, List.drop_succ_cons, List.drop_zero,
    List.length_cons]
  have hr1 : readU32 [p.length / 2 ^ 24 % 256, p.length / 2 ^ 16 % 256,
      p.length / 2 ^ 8 % 256, p.length % 256] = p.length := by
    have := readU32_u32be p.length hp
    simpa [u32be] using this
  have hr2 : readU32 [ty / 2 ^ 24 % 256, ty / 2 ^ 16 % 256,
      ty / 2 ^ 8 % 256, ty % 256] = ty := by
    have := readU32_u32be ty ht
    simpa [u32be] using this
  rw [hr1, hr2]
  have harith : (p.length + 1 + 1 + 1 + 1 + 1 + 1 + 1 + 1 - 8) % 2 ^ 32 = p.length := by
    omega
  rw [harith, if_neg (by omega)]
  rw [List.take_length]

/-- Witness for the amended C8 at a small concrete message. -/
theorem c8_frame_roundtrip_witness :
    decodeMessage (encodeMessage ⟨1, [10, 20, 30]⟩) = some ⟨1, [10, 20, 30]⟩ :=
  c8_frame_roundtrip ⟨1, [10, 20, 30]⟩ (by decide) (by decide)

/-! ### B+-tree index (internal/storage/memory.go, `BPlusTreeIndex`)

Nodes carry keys, posting lists (leaves) and children (internal nodes).
The `Next` leaf pointer is not represented: `findLeaf`, `Add`, `Find` and
`Remove` never follow it, so it does not affect their results; a leaf
split stores the new right leaf only in `Next` (and in a fresh root when
the split leaf was the root).  Keys are a type parameter with the
`CompareFunc` passed explicitly, as in `NewBPlusTreeIndex`; `Save`/`Load`
persistence is I/O and is omitted (`Add`/`Remove` mutate the in-memory
tree before calling `Save`). -/

/-- One node of the B+-tree (`BPlusTreeNode`). -/
inductive BNode (K : Type) where
  | leaf (keys : List K) (values : List (List Nat))
  | internal (keys : List K) (children : List (BNode K))

/-- `findPos`: index of the first key `k` with `compare(k, key) >= 0`,
or `len(keys)`. -/
def findPos {K : Type} (cmp : K → K → Int) : List K → K → Nat
  | [], _ => 0
  | k :: ks, key => if 0 ≤ cmp k key then 0 else findPos cmp ks key + 1

/-- The child index used by `findLeaf` when descending an internal node:
`Children[pos]` if `pos == len(Keys)`, else `Children[pos+1]`. -/
def goChildIndex {K : Type} (cmp : K → K → Int) (ks : List K) (key : K) : Nat :=
  let pos := findPos cmp ks key
  if pos = ks.length then pos else pos + 1

mutual

/-- `Find` (which inlines `findLeaf`'s descent): walk down to a leaf and
return its posting list for `key`, or the empty list.  Selecting the
child via `getD` on the list of recursive results equals descending into
`Children[goChildIndex]`; indices are in bounds on every tree built by
`Add` from the empty root. -/
def bplusFind {K : Type} [Inhabited K] (cmp : K → K → Int) (key : K) :
    BNode K → List Nat
  | .leaf ks vs =>
      let pos := findPos cmp ks key
      if pos < ks.length ∧ cmp (ks.getD pos default) key = 0 then vs.getD pos []
      else []
  | .internal ks cs =>
      (bplusFindList cmp key cs).getD (goChildIndex cmp ks key) []

def bplusFindList {K : Type} [Inhabited K] (cmp : K → K → Int) (key : K) :
    List (BNode K) → List (List Nat)
  | [] => []
  | c :: cs => bplusFind cmp key c :: bplusFindList cmp key cs

end

/-- The leaf mutation of `Add`: append `rowID` to the posting list when
the key is present, otherwise insert `(key, [rowID])` at `findPos`. -/
def leafInsert {K : Type} [Inhabited K] (cmp : K → K → Int) (ks : List K)
    (vs : List (List Nat)) (key : K) (rowID : Nat) :
    List K × List (List Nat) :=
  let pos := findPos cmp ks key
  if pos < ks.length ∧ cmp (ks.getD pos default) key = 0 then
    (ks, vs.set pos (vs.getD pos [] ++ [rowID]))
  else
    (ks.take pos ++ key :: ks.drop pos, vs.take pos ++ [rowID] :: vs.drop pos)

mutual

/-- `Add` on a non-root node.  At a leaf, perform `leafInsert`; on
overflow (`len(Keys) > 2*degree`) `splitLeaf` keeps the first half in the
node and hangs the second half only off the `Next` pointer, so the tree
reachable from the root retains just the first half.  At an internal
node, descend as `findLeaf` does. -/
def bplusAddNR {K : Type} [Inhabited K] (cmp : K → K → Int) (degree : Nat)
    (key : K) (rowID : Nat) : BNode K → BNode K
  | .leaf ks vs =>
      let kv := leafInsert cmp ks vs key rowID
      if 2 * degree < kv.1.length then
        .leaf (kv.1.take (kv.1.length / 2)) (kv.2.take (kv.1.length / 2))
      else .leaf kv.1 kv.2
  | .internal ks cs =>
      .internal ks
        (cs.set (goChildIndex cmp ks key)
          ((bplusAddNRList cmp degree key rowID cs).getD (goChildIndex cmp ks key)
            (.leaf [] [])))

def bplusAddNRList {K : Type} [Inhabited K] (cmp : K → K → Int) (degree : Nat)
    (key : K) (rowID : Nat) : List (BNode K) → List (BNode K)
  | [] => []
  | c :: cs => bplusAddNR cmp degree key rowID c :: bplusAddNRList cmp degree key rowID cs

end

/-- `Add` at the root.  When the root itself is the found leaf and
overflows, `splitLeaf` promotes a new root with separator
`newLeaf.Keys[0]` and children `[left, right]`; otherwise descend. -/
def bplusAdd {K : Type} [Inhabited K] (cmp : K → K → Int) (degree : Nat)
    (root : BNode K) (key : K) (rowID : Nat) : BNode K :=
  match root with
  | .leaf ks vs =>
      let kv := leafInsert cmp ks vs key rowID
      if 2 * degree < kv.1.length then
        let mid := kv.1.length / 2
        .internal ((kv.1.drop mid).take 1)
          [.leaf (kv.1.take mid) (kv.2.take mid),
           .leaf (kv.1.drop mid) (kv.2.drop mid)]
      else .leaf kv.1 kv.2
  | .internal ks cs =>
      .internal ks
        (cs.set (goChildIndex cmp ks key)
          ((bplusAddNRList cmp degree key rowID cs).getD (goChildIndex cmp ks key)
            (.leaf [] [])))

mutual

/-- `Remove`: descend to the leaf; drop `rowID` from the posting list and
drop the key when the posting list empties. -/
def bplusRemove {K : Type} [Inhabited K] (cmp : K → K → Int) (key : K)
    (rowID : Nat) : BNode K → BNode K
  | .leaf ks vs =>
      let pos := findPos cmp ks key
      if pos < ks.length ∧ cmp (ks.getD pos default) key = 0 then
        let newValues := (vs.getD pos []).filter (· ≠ rowID)
        if newValues.length = 0 then
          .leaf (ks.take pos ++ ks.drop (pos + 1)) (vs.take pos ++ vs.drop (pos + 1))
        else .leaf ks (vs.set pos newValues)
      else .leaf ks vs
  | .internal ks cs =>
      .internal ks
        (cs.set (goChildIndex cmp ks key)
          ((bplusRemoveList cmp key rowID cs).getD (goChildIndex cmp ks key)
            (.leaf [] [])))

def bplusRemoveList {K : Type} [Inhabited K] (cmp : K → K → Int) (key : K)
    (rowID : Nat) : List (BNode K) → List (BNode K)
  | [] => []
  | c :: cs => bplusRemove cmp key rowID c :: bplusRemoveList cmp key rowID cs

end

/-- `compareValues` restricted to numeric keys (the comparator installed
by `CreateIndex`), with the Go `-1/0/1` convention. -/
def intCmp (a b : Int) : Int := if a < b then -1 else if b < a then 1 else 0

/-- Replaying a list of `(key, rowId)` operations through `Add` on the
degree-4 tree created by `CreateIndex`, starting from the empty root leaf. -/
def bplusAddAll (ops : List (Int × Nat)) : BNode Int :=
  ops.foldl (fun t kr => bplusAdd intCmp 4 t kr.1 kr.2) (.leaf [] [])

/-! ## C2: B+-tree add/find soundness -/

/-- C2 (code bug): insert keys `2..9`, then `Add(1, 101)`.  The ninth
insert overflows the root leaf (capacity `2*degree = 8`), which splits
into `[1,2,3,4]` and `[5..9]` under a new root with separator `5`.
`Find(1)` then computes `findPos = 0` and descends into `Children[0+1]`,
the right leaf, so it returns the empty posting list even though `101`
was just added under key `1` — immediately after `Add(1, 101)`,
`Find(1)` does not contain `101`. -/
theorem c2_bptree_find_misses_added_key :
    bplusFind intCmp 1
        (bplusAddAll [(2, 2), (3, 3), (4, 4), (5, 5), (6, 6), (7, 7), (8, 8),
          (9, 9), (1, 101)]) = [] ∧
      bplusAddAll [(2, 2), (3, 3), (4, 4), (5, 5), (6, 6), (7, 7), (8, 8),
          (9, 9), (1, 101)] =
        .internal [5]
          [.leaf [1, 2, 3, 4] [[101], [2], [3], [4]],
           .leaf [5, 6, 7, 8, 9] [[5], [6], [7], [8], [9]]] := by
  constructor
  · decide
  · rfl

/-! ### Dynamic values, rows and the memory store
(internal/storage/memory.go, condition.go, unnamed/part_001)

Records are unordered string-keyed maps of dynamic JSON values; Go maps
are modelled as association lists with unique keys (`alookup` is map
read, `aset` map write).  JSON numbers are `float64` in Go and are
modelled as `Int`; no claim below distinguishes integral doubles from
integers.  Nested objects and arrays inside records are not reachable by
any claim and are omitted from `Value`. -/

/-- Map read: `m[k]` with its `ok` flag. -/
def alookup {α : Type} (k : String) : List (String × α) → Option α
  | [] => none
  | (k', v) :: rest => if k' = k then some v else alookup k rest

/-- Map write: `m[k] = v`. -/
def aset {α : Type} (k : String) (v : α) : List (String × α) → List (String × α)
  | [] => [(k, v)]
  | (k', v') :: rest => if k' = k then (k, v) :: rest else (k', v') :: aset k v rest

/-- Decidable equality for `Except` results, used to evaluate the
embedded operations on concrete inputs. -/
instance {ε α : Type} [DecidableEq ε] [DecidableEq α] : DecidableEq (Except ε α) :=
  fun a b =>
    match a, b with
    | .ok x, .ok y =>
      if h : x = y then .isTrue (by rw [h]) else
        .isFalse fun he => h (Except.ok.inj he)
    | .error x, .error y =>
      if h : x = y then .isTrue (by rw [h]) else
        .isFalse fun he => h (Except.error.inj he)
    | .ok _, .error _ => .isFalse fun he => Except.noConfusion he
    | .error _, .ok _ => .isFalse fun he => Except.noConfusion he

/-- A dynamic record value. -/
inductive Value where
  | vNull
  | vBool (b : Bool)
  | vNum (n : Int)
  | vStr (s : String)
deriving DecidableEq

/-- A record (`Row`): field name to value. -/
def Row := List (String × Value)
deriving DecidableEq

/-- One field of a `WHERE` filter: either a scalar (equality) or a JSON
object `{operator, value}`; a missing `operator` key decodes to `""`. -/
inductive FilterVal where
  | scalar (v : Value)
  | cond (op : String) (v : Value)
deriving DecidableEq

/-- A filter object: field name to scalar-or-condition. -/
def Filter := List (String × FilterVal)
deriving DecidableEq

/-- `compareValues`: three-way compare within the string and numeric
branches, `0` for every cross-type pair. -/
def compareValues (a b : Value) : Int :=
  match a, b with
  | .vStr s1, .vStr s2 => if s1 < s2 then -1 else if s2 < s1 then 1 else 0
  | .vNum n1, .vNum n2 => if n1 < n2 then -1 else if n2 < n1 then 1 else 0
  | _, _ => 0

/-- `matchSingleCondition`: a missing field never matches; otherwise
dispatch on the operator string (an unknown operator matches nothing). -/
def matchSingleCondition (record : Row) (column op : String) (value : Value) :
    Bool :=
  match alookup column record with
  | none => false
  | some val =>
    match op with
    | "=" => val == value
    | ">" => decide (compareValues val value > 0)
    | "<" => decide (compareValues val value < 0)
    | ">=" => decide (compareValues val value ≥ 0)
    | "<=" => decide (compareValues val value ≤ 0)
    | "!=" => val != value
    | _ => false

/-- `MatchConditions`: conjunction over the filter fields. -/
def matchConditions (record : Row) (conditions : Filter) : Bool :=
  conditions.all fun kv =>
    match kv.2 with
    | .scalar v => matchSingleCondition record kv.1 "=" v
    | .cond op v => matchSingleCondition record kv.1 op v

/-- The in-RAM data of `MemoryStore`: collection → database → records. -/
def MemData := List (String × List (String × List Row))
deriving DecidableEq

/-- `QueryRecords`: an absent collection or database yields the empty
slice; a `nil` filter yields (a copy of) all records; otherwise the
records satisfying `MatchConditions`.  The Go method's error result is
always `nil`, so the embedding returns the record list alone. -/
def queryRecords (data : MemData) (collection database : String)
    (filter : Option Filter) : List Row :=
  match alookup collection data with
  | none => []
  | some dbs =>
    match alookup database dbs with
    | none => []
    | some records =>
      match filter with
      | none => records
      | some f => records.filter (fun r => matchConditions r f)

/-- `InsertRecord`: lazily create the containers, append the record.
(The method always returns `nil` and sets the `dirty` flag, which only
drives autosave.) -/
def insertRecord (data : MemData) (collection database : String) (record : Row) :
    MemData :=
  let dbs := (alookup collection data).getD []
  let records := (alookup database dbs).getD []
  aset collection (aset database (records ++ [record]) dbs) data

/-- `ExportDatabase` (unnamed/part_001): report an absent collection or
database as an error; the subsequent dump emission is file I/O over the
records and header strings and cannot fail in the model, so a passing
guard is `ok`. -/
def exportDatabase (data : MemData) (collection database : String) :
    Except String Unit :=
  match alookup collection data with
  | none => .error ("集合不存在: " ++ collection)
  | some dbs =>
    match alookup database dbs with
    | none => .error ("数据库不存在: " ++ database)
    | some _ => .ok ()

/-! ### Collections and databases (internal/storage/collection.go)

Directory creation, metadata encryption and `meta.sudb` writes are file
I/O modelled as succeeding; on an `initializeStorage` failure the Go code
rolls the new entry back, so the failing branches leave the collection
unchanged.  `Created`/`Updated` timestamps come from the clock and are
omitted.  `StorageType` is a Go string type and stays `String` (the
parser coerces an arbitrary token into it). -/

/-- Database metadata. -/
structure Database where
  name : String
  dtype : String
  description : String
deriving DecidableEq

/-- A collection: named databases with an owner. -/
structure Collection where
  name : String
  owner : String
  databases : List (String × Database)
deriving DecidableEq

/-- The constant `MaxDatabases` declared in collection.go (never read by
`CreateDatabase`). -/
def MaxDatabases : Nat := 8

/-- `initializeStorage`: type-specific scaffolding; only the directory
structure (I/O) and the type dispatch remain, so the observable result is
acceptance of the four known storage types. -/
def initializeStorage (dbType : String) : Except String Unit :=
  if dbType = "json" ∨ dbType = "text" ∨ dbType = "table" ∨ dbType = "graph" then
    .ok ()
  else .error ("不支持的存储类型: " ++ dbType)

/-- `Collection.CreateDatabase`: reject a taken name, create the entry,
initialize storage (rolling back on failure), save.  There is no check of
`MaxDatabases`. -/
def createDatabase (c : Collection) (name dbType description : String) :
    Except String Collection :=
  if (alookup name c.databases).isSome then .error ("数据库已存在: " ++ name)
  else
    match initializeStorage dbType with
    | .error e => .error ("初始化存储引擎失败: " ++ e)
    | .ok _ =>
      .ok { c with databases := aset name ⟨name, dbType, description⟩ c.databases }

/-- `CollectionManager.CreateCollection`: reject a taken name, else add an
empty collection. -/
def createCollection (cols : List (String × Collection)) (name owner : String) :
    Except String (List (String × Collection)) :=
  if (alookup name cols).isSome then .error ("集合已存在: " ++ name)
  else .ok (aset name ⟨name, owner, []⟩ cols)

/-- `CollectionManager.GetCollection`. -/
def getCollection (cols : List (String × Collection)) (name : String) :
    Except String Collection :=
  match alookup name cols with
  | some c => .ok c
  | none => .error ("集合不存在: " ++ name)

/-- `Engine.CreateDatabase`: look the collection up, create the database
inside it, and write the updated collection back. -/
def engineCreateDatabase (cols : List (String × Collection))
    (collection dbName dbType description : String) :
    Except String (List (String × Collection)) :=
  match getCollection cols collection with
  | .error e => .error e
  | .ok col =>
    match createDatabase col dbName dbType description with
    | .error e => .error e
    | .ok col' => .ok (aset collection col' cols)

/-! ## C3: MaxDatabases quota -/

/-- A collection already holding 8 databases. -/
def fullCollection : Collection :=
  ⟨"c", "root",
    [("d1", ⟨"d1", "json", ""⟩), ("d2", ⟨"d2", "json", ""⟩),
     ("d3", ⟨"d3", "json", ""⟩), ("d4", ⟨"d4", "json", ""⟩),
     ("d5", ⟨"d5", "json", ""⟩), ("d6", ⟨"d6", "json", ""⟩),
     ("d7", ⟨"d7", "json", ""⟩), ("d8", ⟨"d8", "json", ""⟩)]⟩

/-- C3 (code bug): `CreateDatabase` on a collection that already holds
`MaxDatabases = 8` databases succeeds and yields a ninth database — the
declared quota constant is never consulted (the duplicate-name half of the
claim does hold: the same call with a taken name fails). -/
theorem c3_maxdatabases_not_enforced :
    fullCollection.databases.length = MaxDatabases ∧
      (∃ c', createDatabase fullCollection "d9" "json" "x" = .ok c' ∧
        c'.databases.length = 9) ∧
      createDatabase fullCollection "d8" "json" "x" = .error "数据库已存在: d8" := by
  refine ⟨by decide, ⟨{ fullCollection with
    databases := fullCollection.databases ++ [("d9", ⟨"d9", "json", "x"⟩)] }, ?_, ?_⟩, ?_⟩
  · rfl
  · decide
  · rfl

/-! ## C10: queries against absent containers -/

/-- C10 (confirmed): `QueryRecords` on an absent collection or database
returns the empty list and (in Go) a `nil` error, exactly as for an
existing empty database, while `ExportDatabase` reports the missing
container as an error. -/
theorem c10_missing_containers_silent :
    (∀ (data : MemData) (coll db : String) (filter : Option Filter),
      alookup coll data = none →
        queryRecords data coll db filter = [] ∧
          exportDatabase data coll db = .error ("集合不存在: " ++ coll)) ∧
      (∀ (data : MemData) (dbs : List (String × List Row)) (coll db : String)
          (filter : Option Filter),
        alookup coll data = some dbs → alookup db dbs = none →
          queryRecords data coll db filter = [] ∧
            exportDatabase data coll db = .error ("数据库不存在: " ++ db)) ∧
      (∀ (coll db : String) (filter : Option Filter),
        queryRecords [(coll, [(db, [])])] coll db filter = []) := by
  refine ⟨fun data coll db filter h => ?_, fun data dbs coll db filter h h2 => ?_,
    fun coll db filter => ?_⟩
  · exact ⟨by simp [queryRecords, h], by simp [exportDatabase, h]⟩
  · exact ⟨by simp [queryRecords, h, h2], by simp [exportDatabase, h, h2]⟩
  · cases filter <;> simp [queryRecords, alookup]

/-- Witness for C10 with a concrete store: a store holding only
`("c0", db0)` queried at the absent collection `a` and the absent
database `b`. -/
theorem c10_missing_containers_silent_witness :
    (queryRecords [("c0", [("db0", [])])] "a" "b" none = [] ∧
        exportDatabase [("c0", [("db0", [])])] "a" "b" = .error "集合不存在: a") ∧
      (queryRecords [("c0", [("db0", [])])] "c0" "b" none = [] ∧
        exportDatabase [("c0", [("db0", [])])] "c0" "b" = .error "数据库不存在: b") :=
  ⟨c10_missing_containers_silent.1 [("c0", [("db0", [])])] "a" "b" none (by decide),
   c10_missing_containers_silent.2.1 [("c0", [("db0", [])])] [("db0", [])] "c0" "b"
     none (by decide) (by decide)⟩

/-! ### Permission engine (internal/auth/permission.go)

`Permission` and `ResourceType` are Go string types and stay `String`.
Rule matching calls `regexp.MatchString(pattern, name)` on the pattern
`strings.ReplaceAll(rule.Resource.Name, "*", ".*")`; for names made of
ordinary characters plus `.` and `*` (no other regex metacharacters) that
pattern is a sequence of literal atoms, any-char atoms (`.`) and `.*`
atoms, and `MatchString` reports whether ANY substring matches — the
model below implements exactly that pattern class and search
semantics. -/

/-- A resource identifier. -/
structure Resource where
  rtype : String
  rname : String
  sub : String
deriving DecidableEq

/-- A permission rule (the `Grant`/`Condition` fields play no part in
matching). -/
structure PermissionRule where
  permission : String
  resource : Resource
  grant : Bool
  condition : String
deriving DecidableEq

/-- One atom of the compiled pattern. -/
inductive RegTok where
  | lit (c : Char)
  | anyChar
  | anyStar
deriving DecidableEq

/-- Compile one character of the rule name: `*` was replaced by `.*`
(one Kleene-any atom), `.` is the regex any-char, anything else a
literal. -/
def regTokOf (c : Char) : RegTok :=
  if c = '*' then .anyStar else if c = '.' then .anyChar else .lit c

/-- The pattern `regexp.MatchString` compiles for a rule name. -/
def goPatternOf (name : String) : List RegTok :=
  name.toList.map regTokOf

/-- Does the pattern match some prefix of `s`? -/
def matchToks : List RegTok → List Char → Bool
  | [], _ => true
  | .lit c :: ts, s =>
    match s with
    | [] => false
    | x :: xs => (x == c) && matchToks ts xs
  | .anyChar :: ts, s =>
    match s with
    | [] => false
    | _ :: xs => matchToks ts xs
  | .anyStar :: ts, s => (List.tails s).any fun t => matchToks ts t

/-- `regexp.MatchString`: does the pattern match anywhere in `s`? -/
def regexSearch (toks : List RegTok) (s : List Char) : Bool :=
  (List.tails s).any fun t => matchToks toks t

/-- Does the pattern match the whole of `s`?  This is the anchored "name
matches the glob" reading of the specification, used to compare against
the code's search semantics. -/
def matchFull : List RegTok → List Char → Bool
  | [], s => s.isEmpty
  | .lit c :: ts, s =>
    match s with
    | [] => false
    | x :: xs => (x == c) && matchFull ts xs
  | .anyChar :: ts, s =>
    match s with
    | [] => false
    | _ :: xs => matchFull ts xs
  | .anyStar :: ts, s => (List.tails s).any fun t => matchFull ts t

/-- `matchPermissionRule`: permission and resource type must be equal; an
empty rule name matches everything of that type; a name containing `*`
is matched with `regexp.MatchString` (so: unanchored search); otherwise
the names must be equal. -/
def matchPermissionRule (rule : PermissionRule) (perm : String) (res : Resource) :
    Bool :=
  if rule.permission ≠ perm then false
  else if rule.resource.rtype ≠ res.rtype then false
  else if rule.resource.rname = "" then true
  else if rule.resource.rname.toList.any (· == '*') then
    regexSearch (goPatternOf rule.resource.rname) res.rname.toList
  else decide (rule.resource.rname = res.rname)

/-- The rule-matching predicate exactly as the specification words it:
the rule's name is empty, or equals the resource name, or contains `*`
and the resource name matches the name read as a glob (anchored whole-
string match). -/
def specRuleMatches (rule : PermissionRule) (perm : String) (res : Resource) :
    Bool :=
  decide (rule.permission = perm) && decide (rule.resource.rtype = res.rtype) &&
    (decide (rule.resource.rname = "") || decide (rule.resource.rname = res.rname) ||
      (rule.resource.rname.toList.any (· == '*') &&
        matchFull (goPatternOf rule.resource.rname) res.rname.toList))

/-! ## C7: permission rule matching -/

/-- C7 counterexample: the rule name `b*` read as a glob does not match
the resource name `ab`, but `regexp.MatchString("b.*", "ab")` searches
unanchored and finds the match at position 1, so the code accepts the
pair while the claim rejects it. -/
theorem c7_rule_matching_counterexample :
    matchPermissionRule ⟨"SELECT", ⟨"TABLE", "b*", ""⟩, false, ""⟩ "SELECT"
        ⟨"TABLE", "ab", ""⟩ = true ∧
      specRuleMatches ⟨"SELECT", ⟨"TABLE", "b*", ""⟩, false, ""⟩ "SELECT"
        ⟨"TABLE", "ab", ""⟩ = false := by
  constructor
  · decide
  · decide

theorem matchToks_self (l : List Char) : matchToks (l.map regTokOf) l = true := by
  induction l with
  | nil => rfl
  | cons c xs ih =>
    by_cases hstar : c = '*'
    · simp only [List.map_cons, regTokOf, if_pos hstar, matchToks]
      rw [List.any_eq_true]
      exact ⟨xs, (List.mem_tails _ _).mpr ⟨[c], rfl⟩, ih⟩
    · by_cases hdot : c = '.'
      · simp only [List.map_cons, regTokOf, if_neg hstar, if_pos hdot, matchToks]
        exact ih
      · simp only [List.map_cons, regTokOf, if_neg hstar, if_neg hdot, matchToks]
        simp [ih]

theorem regexSearch_self (name : String) :
    regexSearch (goPatternOf name) name.toList = true := by
  rw [regexSearch, List.any_eq_true]
  exact ⟨name.toList, (List.mem_tails _ _).mpr ⟨[], rfl⟩, matchToks_self name.toList⟩

/-- C7 (amended): a rule matches `(p, r)` iff its permission equals `p`,
its resource type equals `r`'s type, and its name is empty, or equals
`r`'s name, or contains `*` and SOME SUBSTRING of `r`'s name matches the
name compiled to a regular expression with `*` ↦ `.*` — the match is an
unanchored `regexp.MatchString` search, not a whole-string glob match. -/
theorem c7_rule_matching_amended (rule : PermissionRule) (perm : String)
    (res : Resource) :
    matchPermissionRule rule perm res = true ↔
      (rule.permission = perm ∧ rule.resource.rtype = res.rtype ∧
        (rule.resource.rname = "" ∨ rule.resource.rname = res.rname ∨
          (rule.resource.rname.toList.any (· == '*') = true ∧
            regexSearch (goPatternOf rule.resource.rname) res.rname.toList = true))) := by
  unfold matchPermissionRule
  split_ifs with h1 h2 h3 h4
  · simp only [Bool.false_eq_true, false_iff]
    intro h
    exact h1 h.1
  · simp only [Bool.false_eq_true, false_iff]
    intro h
    exact h2 h.2.1
  · simp only [true_iff]
    push_neg at h1 h2
    exact ⟨h1, h2, Or.inl h3⟩
  · push_neg at h1 h2
    constructor
    · intro hs
      exact ⟨h1, h2, Or.inr (Or.inr ⟨h4, hs⟩)⟩
    · rintro ⟨-, -, hname | hname | ⟨-, hs⟩⟩
      · exact absurd hname h3
      · rw [hname] at h4 ⊢
        exact regexSearch_self res.rname
      · exact hs
  · push_neg at h1 h2
    constructor
    · intro hd
      exact ⟨h1, h2, Or.inr (Or.inl (of_decide_eq_true hd))⟩
    · rintro ⟨-, -, hname | hname | ⟨hstar, -⟩⟩
      · exact absurd hname h3
      · exact decide_eq_true hname
      · rw [hstar] at h4
        exact absurd rfl h4

/-! ### Roles and the permission manager state -/

/-- The rules seeded for the `admin` role. -/
def adminRules : List PermissionRule :=
  [⟨"CREATE_DATABASE", ⟨"DATABASE", "", ""⟩, false, ""⟩,
   ⟨"DROP_DATABASE", ⟨"DATABASE", "", ""⟩, false, ""⟩,
   ⟨"CREATE_USER", ⟨"DATABASE", "", ""⟩, false, ""⟩,
   ⟨"DROP_USER", ⟨"DATABASE", "", ""⟩, false, ""⟩,
   ⟨"GRANT", ⟨"DATABASE", "", ""⟩, false, ""⟩,
   ⟨"REVOKE", ⟨"DATABASE", "", ""⟩, false, ""⟩,
   ⟨"BACKUP", ⟨"DATABASE", "", ""⟩, false, ""⟩,
   ⟨"RESTORE", ⟨"DATABASE", "", ""⟩, false, ""⟩,
   ⟨"VIEW_AUDIT", ⟨"DATABASE", "", ""⟩, false, ""⟩,
   ⟨"MANAGE_AUDIT", ⟨"DATABASE", "", ""⟩, false, ""⟩]

/-- The single rule of the `readonly` role: `SELECT` over resource type
`TABLE`. -/
def readonlyRules : List PermissionRule :=
  [⟨"SELECT", ⟨"TABLE", "", ""⟩, false, ""⟩]

/-- The rules of the `developer` role. -/
def developerRules : List PermissionRule :=
  [⟨"SELECT", ⟨"TABLE", "", ""⟩, false, ""⟩,
   ⟨"INSERT", ⟨"TABLE", "", ""⟩, false, ""⟩,
   ⟨"UPDATE", ⟨"TABLE", "", ""⟩, false, ""⟩,
   ⟨"DELETE", ⟨"TABLE", "", ""⟩, false, ""⟩,
   ⟨"CREATE_TABLE", ⟨"DATABASE", "", ""⟩, false, ""⟩,
   ⟨"ALTER_TABLE", ⟨"TABLE", "", ""⟩, false, ""⟩]

/-- `PermissionManager` state: named roles (`Name`/`Description` of the
`Role` struct are bookkeeping; matching reads only the rule lists),
user→roles and user→direct-rules maps. -/
structure PermState where
  roles : List (String × List PermissionRule)
  userRoles : List (String × List String)
  userPermissions : List (String × List PermissionRule)
deriving DecidableEq

/-- `NewPermissionManager` / `initPredefinedRoles`. -/
def defaultPermState : PermState :=
  ⟨[("admin", adminRules), ("readonly", readonlyRules),
    ("developer", developerRules)], [], []⟩

/-- `PermissionManager.CheckPermission`: direct rules first, then every
rule of every assigned role. -/
def pmCheckPermission (pm : PermState) (username perm : String) (res : Resource) :
    Bool :=
  ((alookup username pm.userPermissions).getD []).any
      (fun rule => matchPermissionRule rule perm res) ||
    ((alookup username pm.userRoles).getD []).any fun roleName =>
      match alookup roleName pm.roles with
      | some rules => rules.any fun rule => matchPermissionRule rule perm res
      | none => false

/-- `AssignRole`: unknown roles are an error; assigning a role the user
already holds is a no-op success. -/
def assignRole (pm : PermState) (username roleName : String) :
    Except String PermState :=
  if (alookup roleName pm.roles).isNone then .error ("角色不存在: " ++ roleName)
  else
    match alookup username pm.userRoles with
    | some rs =>
      if rs.contains roleName then .ok pm
      else .ok { pm with userRoles := aset username (rs ++ [roleName]) pm.userRoles }
    | none => .ok { pm with userRoles := aset username [roleName] pm.userRoles }

/-- The role-assignment loop of `CreateUser`. -/
def assignRoles (pm : PermState) (username : String) :
    List String → Except String PermState
  | [] => .ok pm
  | r :: rs =>
    match assignRole pm username r with
    | .error e => .error e
    | .ok pm' => assignRoles pm' username rs

/-! ### User manager (internal/storage/user.go, second document — the
active plaintext-password version)

Encrypted persistence (`Save`/`Load`) is file I/O and is omitted; the
in-memory user map and the embedded permission manager are the state. -/

/-- A stored user. -/
structure UserRec where
  username : String
  password : String
  roles : List String
  status : String
deriving DecidableEq

/-- `UserManager` state. -/
structure UserState where
  users : List (String × UserRec)
  permMgr : PermState
deriving DecidableEq

/-- A fresh user manager before the bootstrap default user is added. -/
def freshUserState : UserState := ⟨[], defaultPermState⟩

/-- `CreateUser`: reject a taken username, store the user with status
`active` and the plaintext password, and assign each requested role.  (In
Go a failing `AssignRole` returns after the map insert; the claims only
exercise the success path, which this reproduces exactly.) -/
def createUser (um : UserState) (username password : String)
    (roles : List String) : Except String UserState :=
  if (alookup username um.users).isSome then .error "用户已存在"
  else
    match assignRoles um.permMgr username roles with
    | .error e => .error e
    | .ok pm' =>
      .ok ⟨aset username ⟨username, password, roles, "active"⟩ um.users, pm'⟩

/-- `ValidateUser`: the user exists, has status `active`, and the stored
password equals the supplied one. -/
def validateUser (um : UserState) (username password : String) : Bool :=
  match alookup username um.users with
  | none => false
  | some u => decide (u.status = "active") && decide (u.password = password)

/-- `UserManager.CheckPermission`: missing or non-active users are
denied; `root` is always allowed; a user holding the `admin` role is
always allowed; otherwise delegate to the permission manager. -/
def umCheckPermission (um : UserState) (username perm : String) (res : Resource) :
    Bool :=
  match alookup username um.users with
  | none => false
  | some u =>
    if u.status ≠ "active" then false
    else if username = "root" then true
    else if u.roles.contains "admin" then true
    else pmCheckPermission um.permMgr username perm res

/-! ### Dialect parser (unnamed/part_006, `SQLParser.Parse`)

`json.Unmarshal` (for `INSERT ... VALUES` objects and `SELECT ... WHERE`
filters) and `strconv.ParseFloat` are standard-library dependencies and
are passed in as functions; every string manipulation of the parser
itself is embedded. -/

/-- A parsed statement, with Go zero values for unset fields. -/
structure Statement where
  stype : String
  collection : String
  database : String
  dbType : String
  owner : String
  description : String
  columns : List String
  data : Row
  filter : Option Filter
  filePath : String
deriving DecidableEq

/-- `&Statement{}`. -/
def emptyStmt : Statement := ⟨"", "", "", "", "", "", [], [], none, ""⟩

/-- `unicode.IsSpace` restricted to the ASCII spaces that can appear in a
query line. -/
def isWS (c : Char) : Bool := c == ' ' || c == '\t' || c == '\n' || c == '\r'

/-- Split a character list at every separator satisfying `p` (the
separators are dropped, empty segments kept). -/
def splitPredList (p : Char → Bool) : List Char → List (List Char)
  | [] => [[]]
  | c :: rest =>
    let r := splitPredList p rest
    if p c then [] :: r
    else (c :: r.headD []) :: r.tail

/-- `strings.Fields`: split on whitespace, dropping empty fields. -/
def goFields (s : String) : List String :=
  ((splitPredList isWS s.toList).filter (fun l => !l.isEmpty)).map
    fun l => String.mk l

/-- `strings.Split(s, sep)` for a single-character separator. -/
def splitOnChar (sep : Char) (s : String) : List String :=
  (splitPredList (· == sep) s.toList).map fun l => String.mk l

/-- `strings.Join(l, " ")`. -/
def joinSpace : List String → String
  | [] => ""
  | [x] => x
  | x :: xs => x ++ " " ++ joinSpace xs

/-- `strings.ToUpper` (ASCII). -/
def goToUpper (s : String) : String := String.mk (s.toList.map Char.toUpper)

/-- `strings.Trim(s, "'")`. -/
def trimQuotes (s : String) : String :=
  String.mk (((s.toList.dropWhile (· == '\'')).reverse.dropWhile
    (· == '\'')).reverse)

/-- `strings.TrimSpace`. -/
def trimSpace (s : String) : String :=
  String.mk (((s.toList.dropWhile isWS).reverse.dropWhile isWS).reverse)

/-- The `value[1 : len(value)-1]` quote strip of the `SET` parser, applied
when the value both starts and ends with `'`. -/
def stripValueQuotes (s : String) : String :=
  let cs := s.toList
  if cs.headD ' ' == '\'' && cs.getLastD ' ' == '\'' then
    String.mk (cs.drop 1).dropLast
  else s

/-- External parsing dependencies of `Parse`. -/
structure ParseDeps where
  jsonRow : String → Option Row
  jsonFilter : String → Option Filter
  parseFloat : String → Option Value

/-- The `TYPE`/`DESCRIPTION` option loop of `CREATE DATABASE` (the loop
over `parts[3:]`, consuming the value token after each keyword). -/
def parseDbOpts : List String → String × String → String × String
  | [], acc => acc
  | w :: rest, acc =>
    let wu := goToUpper w
    if wu = "TYPE" then
      match rest with
      | t :: rest' => parseDbOpts rest' (t, acc.2)
      | [] => acc
    else if wu = "DESCRIPTION" then
      match rest with
      | d :: rest' => parseDbOpts rest' (acc.1, trimQuotes d)
      | [] => acc
    else parseDbOpts rest acc

/-- The `SET`/`WHERE` keyword scan of `UPDATE`: remember the last `SET`
index, stop at the first `WHERE`. -/
def findSetWhere : List String → Nat → Option Nat × Option Nat →
    Option Nat × Option Nat
  | [], _, acc => acc
  | w :: rest, i, (si, wi) =>
    if goToUpper w = "SET" then findSetWhere rest (i + 1) (some i, wi)
    else if goToUpper w = "WHERE" then (si, some i)
    else findSetWhere rest (i + 1) (si, wi)

/-- The character state machine of the `SET` clause: single quotes toggle
`inQuote`; an unquoted `=` captures the key; an unquoted `,` commits a
pair.  Returns the pending key, the pending builder content and the
committed updates. -/
def parseSetLoop : List Char → Bool → List Char → String →
    List (String × Value) → String × List Char × List (String × Value)
  | [], _, current, key, updates => (key, current, updates)
  | ch :: rest, inQuote, current, key, updates =>
    if ch = '\'' then parseSetLoop rest (!inQuote) (current ++ [ch]) key updates
    else if ch = '=' then
      if !inQuote then
        parseSetLoop rest inQuote [] (trimSpace (String.mk current)) updates
      else parseSetLoop rest inQuote (current ++ [ch]) key updates
    else if ch = ',' then
      if !inQuote then
        let value := trimSpace (String.mk current)
        let updates' :=
          if key ≠ "" then aset key (.vStr (stripValueQuotes value)) updates
          else updates
        parseSetLoop rest inQuote [] "" updates'
      else parseSetLoop rest inQuote (current ++ [ch]) key updates
    else parseSetLoop rest inQuote (current ++ [ch]) key updates

/-- The full `SET` clause parse, committing the final pending pair. -/
def parseSetClause (setStr : String) : List (String × Value) :=
  let r := parseSetLoop setStr.toList false [] "" []
  if r.1 ≠ "" then
    aset r.1 (.vStr (stripValueQuotes (trimSpace (String.mk r.2.1)))) r.2.2
  else r.2.2

/-- `SQLParser.Parse`. -/
def parseSQL (deps : ParseDeps) (sql : String) : Except String Statement :=
  let parts := goFields sql
  match parts with
  | [] => .error "空SQL语句"
  | p0 :: _ =>
    let stype := goToUpper p0
    if stype = "INSERT" then
      if parts.length < 4 then .error "无效的INSERT语句"
      else if goToUpper (parts.getD 1 "") ≠ "INTO" then
        .error "INSERT语句缺少INTO关键字"
      else
        match splitOnChar '.' (parts.getD 2 "") with
        | [c, d] =>
          if goToUpper (parts.getD 3 "") ≠ "VALUES" then
            .error "INSERT语句缺少VALUES关键字"
          else
            match deps.jsonRow (joinSpace (parts.drop 4)) with
            | none => .error "解析JSON数据失败"
            | some row =>
              .ok { emptyStmt with
                  stype := "INSERT",
                  collection := c,
                  database := d,
                  data := row }
        | _ => .error "无效的数据库名称格式，应为: collection.database"
    else if stype = "SELECT" then
      if parts.length < 4 then .error "无效的SELECT语句"
      else if goToUpper (parts.getD 2 "") ≠ "FROM" then
        .error "SELECT语句缺少FROM关键字"
      else
        let columns :=
          if parts.getD 1 "" = "*" then ([] : List String)
          else splitOnChar ',' (parts.getD 1 "")
        match splitOnChar '.' (parts.getD 3 "") with
        | [c, d] =>
          if parts.length > 4 then
            if goToUpper (parts.getD 4 "") ≠ "WHERE" then
              .error "SELECT语句的WHERE子句无效"
            else
              match deps.jsonFilter (joinSpace (parts.drop 5)) with
              | none => .error "解析WHERE条件失败"
              | some f =>
                .ok { emptyStmt with
                    stype := "SELECT",
                    collection := c,
                    database := d,
                    columns := columns,
                    filter := some f }
          else
            .ok { emptyStmt with
                stype := "SELECT",
                collection := c,
                database := d,
                columns := columns }
        | _ => .error "无效的数据库名称格式，应为: collection.database"
    else if stype = "CREATE" then
      if parts.length < 2 then .error "无效的CREATE语句"
      else
        let objectType := goToUpper (parts.getD 1 "")
        if objectType = "COLLECTION" then
          if parts.length < 3 then .error "缺少集合名称"
          else
            .ok { emptyStmt with
                stype := "CREATE_COLLECTION",
                collection := parts.getD 2 "",
                owner := "root" }
        else if objectType = "DATABASE" then
          if parts.length < 3 then .error "缺少数据库名称"
          else
            match splitOnChar '.' (parts.getD 2 "") with
            | [c, d] =>
              let opts := parseDbOpts (parts.drop 3) ("", "")
              .ok { emptyStmt with
                  stype := "CREATE_DATABASE",
                  collection := c,
                  database := d,
                  dbType := opts.1,
                  description := opts.2 }
            | _ => .error "无效的数据库名称格式，应为: collection.database"
        else .error ("不支持的CREATE类型: " ++ objectType)
    else if stype = "SHOW" then
      if parts.length < 2 then .error "无效的SHOW语句"
      else
        let w := goToUpper (parts.getD 1 "")
        if w = "COLLECTIONS" then
          .ok { emptyStmt with
              stype := "SHOW_COLLECTIONS" }
        else if w = "DATABASES" then
          if parts.length < 4 ∨ goToUpper (parts.getD 2 "") ≠ "FROM" then
            .error "无效的SHOW DATABASES语句"
          else
            .ok { emptyStmt with
                stype := "SHOW_DATABASES",
                collection := parts.getD 3 "" }
        else .error ("不支持的SHOW类型: " ++ parts.getD 1 "")
    else if stype = "IMPORT" then
      if parts.length < 3 ∨ goToUpper (parts.getD 1 "") ≠ "FROM" then
        .error "无效的IMPORT语句"
      else
        .ok { emptyStmt with
            stype := "IMPORT",
            filePath := joinSpace (parts.drop 2) }
    else if stype = "EXPORT" then
      if parts.length < 4 ∨ goToUpper (parts.getD 2 "") ≠ "TO" then
        .error "无效的EXPORT语句"
      else
        match splitOnChar '.' (parts.getD 1 "") with
        | [c, d] =>
          .ok { emptyStmt with
              stype := "EXPORT",
              collection := c,
              database := d,
              filePath := joinSpace (parts.drop 3) }
        | _ => .error "无效的数据库名称格式，应为: collection.database"
    else if stype = "UPDATE" then
      if parts.length < 4 then .error "无效的UPDATE语句"
      else
        match splitOnChar '.' (parts.getD 1 "") with
        | [c, d] =>
          match findSetWhere parts 0 (none, none) with
          | (none, _) => .error "UPDATE语句缺少SET子句"
          | (some si, wi) =>
            match wi with
            | none =>
              -- Go slices `parts[setIndex+1 : whereIndex]` with
              -- `whereIndex == -1`, a runtime panic
              .error "panic: slice bounds out of range"
            | some wiv =>
              let setStr := joinSpace ((parts.take wiv).drop (si + 1))
              let updates := parseSetClause setStr
              let whereStr := joinSpace (parts.drop (wiv + 1))
              match splitOnChar '=' whereStr with
              | [k, v] =>
                let key := trimSpace k
                let value := trimSpace v
                let fval :=
                  match deps.parseFloat value with
                  | some nv => nv
                  | none => .vStr value
                .ok { emptyStmt with
                    stype := "UPDATE",
                    collection := c,
                    database := d,
                    data := updates,
                    filter := some [(key,
                    .scalar fval)] }
              | _ => .error "无效的WHERE子句格式"
        | _ => .error "无效的数据库名称格式，应为: collection.database"
    else .error ("不支持的SQL语句: " ++ sql)

/-! ### Server (internal/security/crypto.go second document — the network
server; Server.handleMessage / handleAuth / handleQuery / executeQuery)

Per-connection state is the `Client` `{auth, user}` pair; the shared
state is the engine (memory store and collections), the user manager and
the audit log, modelled as the list of records written through
`AuditLogger.Log` (each `Log` call appends exactly one line; file
rotation only chooses which file receives it, and `Log`'s own I/O errors
are ignored by the callers).  Timestamps and client IPs come from the
environment and are omitted from the records.  `MemoryStore.UpdateRecords`
is called by the server but is defined nowhere in the repository sources,
and `ImportFromFile`'s statement replay depends on JSON decoding, so both
are opaque dependencies in `ExecDeps`; no claim below depends on their
results. -/

/-- The payload of a client message: either bytes that JSON-decode as
`{"username": u, "password": p}`, or any other byte string (queries,
malformed auth payloads). -/
inductive SrvPayload where
  | creds (username password : String)
  | text (s : String)
deriving DecidableEq

/-- `string(msg.Payload)`.  For a credentials payload this is the JSON
object text; its exact rendering is irrelevant to every claim (such bytes
are only ever re-read when a client sends them as a Query, and any
non-keyword first token fails the parse the same way), so it is rendered
as a marker no dialect keyword matches. -/
def payloadText : SrvPayload → String
  | .creds u p => "auth-credentials-json " ++ u ++ " " ++ p
  | .text s => s

/-- A received message: `mtype` is the `uint32` frame type
(`0=Auth, 1=Query, 2=Result, 3=Error`). -/
structure SrvMessage where
  mtype : Nat
  payload : SrvPayload
deriving DecidableEq

/-- One audit record (`LogEntry` without the clock- and socket-supplied
`Timestamp`/`IP`); `level` is the `LogLevel` integer (`INFO=0, ERROR=2`). -/
structure AuditEntry where
  level : Nat
  user : String
  action : String
  obj : String
  status : String
  details : String
deriving DecidableEq

def auditINFO : Nat := 0
def auditERROR : Nat := 2

/-- The storage engine state reached through `Server.engine`. -/
structure EngineState where
  memStore : MemData
  collections : List (String × Collection)
deriving DecidableEq

/-- The server-side shared state. -/
structure ServerState where
  engine : EngineState
  userMgr : UserState
  audit : List AuditEntry
deriving DecidableEq

/-- Per-connection session state (`Client`). -/
structure ClientState where
  auth : Bool
  user : String
deriving DecidableEq

/-- The reply frame written back to the client: a `Result` frame (whose
JSON payload is abstracted except for the literal auth greeting) or an
`Error` frame carrying `"错误: " ++ err`. -/
inductive Reply where
  | result (msg : String)
  | errorReply (msg : String)
deriving DecidableEq

/-- Callee dependencies of query execution that are external to the
sources (see the section comment). -/
structure ExecDeps where
  updateRecords : String → String → Row → Option Filter → MemData →
    Except String MemData
  importFromFile : String → String → MemData → Except String MemData

/-- The `(permission, resource)` pair the `handleQuery` switch computes
for the permission-gated statement types; `none` for `IMPORT`, `UPDATE`
and unknown types, which never reach the permission check. -/
def permResourceOf (stmt : Statement) : Option (String × Resource) :=
  if stmt.stype = "INSERT" then
    some ("INSERT", ⟨"DATABASE", stmt.collection ++ "." ++ stmt.database, ""⟩)
  else if stmt.stype = "SELECT" then
    some ("SELECT", ⟨"DATABASE", stmt.collection ++ "." ++ stmt.database, ""⟩)
  else if stmt.stype = "SHOW_COLLECTIONS" then
    some ("SELECT", ⟨"DATABASE", "", ""⟩)
  else if stmt.stype = "SHOW_DATABASES" then
    some ("SELECT", ⟨"DATABASE", "", ""⟩)
  else if stmt.stype = "CREATE_COLLECTION" then
    some ("CREATE_DATABASE", ⟨"DATABASE", "", ""⟩)
  else if stmt.stype = "CREATE_DATABASE" then
    some ("CREATE_DATABASE", ⟨"DATABASE", "", ""⟩)
  else if stmt.stype = "EXPORT" then
    some ("SELECT", ⟨"DATABASE", stmt.collection ++ "." ++ stmt.database, ""⟩)
  else none

/-- `Server.executeQuery`: run the statement against the engine.  The
marshalled result bytes cannot fail to serialise and are abstracted to
`Unit`; the error cases are exactly those of the Go code. -/
def executeQuery (deps : ExecDeps) (stmt : Statement) (eng : EngineState) :
    Except String Unit × EngineState :=
  if stmt.stype = "INSERT" then
    (.ok (), { eng with
      memStore := insertRecord eng.memStore stmt.collection stmt.database stmt.data })
  else if stmt.stype = "SELECT" then
    -- QueryRecords never errors; column projection is a pure map
    (.ok (), eng)
  else if stmt.stype = "SHOW_COLLECTIONS" then (.ok (), eng)
  else if stmt.stype = "SHOW_DATABASES" then
    match getCollection eng.collections stmt.collection with
    | .error e => (.error e, eng)
    | .ok _ => (.ok (), eng)
  else if stmt.stype = "CREATE_COLLECTION" then
    match createCollection eng.collections stmt.collection stmt.owner with
    | .error e => (.error e, eng)
    | .ok cols => (.ok (), { eng with collections := cols })
  else if stmt.stype = "CREATE_DATABASE" then
    match engineCreateDatabase eng.collections stmt.collection stmt.database
        stmt.dbType stmt.description with
    | .error e => (.error e, eng)
    | .ok cols => (.ok (), { eng with collections := cols })
  else if stmt.stype = "EXPORT" then
    match getCollection eng.collections stmt.collection with
    | .error e => (.error e, eng)
    | .ok col =>
      if (alookup stmt.database col.databases).isNone then
        (.error ("数据库不存在: " ++ stmt.database), eng)
      else
        match exportDatabase eng.memStore stmt.collection stmt.database with
        | .error e => (.error ("导出失败: " ++ e), eng)
        | .ok _ => (.ok (), eng)
  else if stmt.stype = "UPDATE" then
    match deps.updateRecords stmt.collection stmt.database stmt.data stmt.filter
        eng.memStore with
    | .error e => (.error e, eng)
    | .ok ms => (.ok (), { eng with memStore := ms })
  else (.error ("不支持的操作类型: " ++ stmt.stype), eng)

/-- `Server.handleQuery` after a successful parse: `IMPORT` and `UPDATE`
return inline before the permission check and the audit block; the other
recognized types compute `(perm, res)`, non-root users must pass
`CheckPermission`, and execution writes exactly one audit record —
`SUCCESS` with the query text in the details, or an `ERROR`-level
`FAILED` record carrying the error. -/
def handleQueryStmt (deps : ExecDeps) (st : ServerState) (user payload : String)
    (stmt : Statement) : Except String Unit × ServerState :=
  if stmt.stype = "IMPORT" then
    let parts := goFields payload
    if parts.length < 4 ∨ goToUpper (parts.getD 1 "") ≠ "FROM" ∨
        goToUpper (parts.getD 3 "") ≠ "TO" then
      (.error "无效的IMPORT语句，格式应为: IMPORT FROM filepath TO collection", st)
    else if parts.length = 4 then
      -- Go reads `parts[4]` here: index out of range
      (.error "panic: index out of range", st)
    else
      match deps.importFromFile (parts.getD 2 "") (parts.getD 4 "")
          st.engine.memStore with
      | .error e => (.error ("导入数据失败: " ++ e), st)
      | .ok ms => (.ok (), { st with engine := { st.engine with memStore := ms } })
  else if stmt.stype = "UPDATE" then
    match deps.updateRecords stmt.collection stmt.database stmt.data stmt.filter
        st.engine.memStore with
    | .error e => (.error e, st)
    | .ok ms => (.ok (), { st with engine := { st.engine with memStore := ms } })
  else
    match permResourceOf stmt with
    | none => (.error ("不支持的操作类型: " ++ stmt.stype), st)
    | some pr =>
      if user ≠ "root" ∧ umCheckPermission st.userMgr user pr.1 pr.2 = false then
        (.error "权限不足", st)
      else
        let r := executeQuery deps stmt st.engine
        match r.1 with
        | .error e =>
          (.error e, { st with
            engine := r.2,
            audit := st.audit ++
              [⟨auditERROR, user, pr.1, pr.2.rtype ++ ":" ++ pr.2.rname,
                "FAILED", e⟩] })
        | .ok _ =>
          (.ok (), { st with
            engine := r.2,
            audit := st.audit ++
              [⟨auditINFO, user, pr.1, pr.2.rtype ++ ":" ++ pr.2.rname,
                "SUCCESS", "操作成功: " ++ payload⟩] })

/-- `Server.handleQuery`: parse, then dispatch; a parse failure is
reported without touching any state. -/
def handleQuery (pdeps : ParseDeps) (edeps : ExecDeps) (st : ServerState)
    (user payload : String) : Except String Unit × ServerState :=
  match parseSQL pdeps payload with
  | .error e => (.error e, st)
  | .ok stmt => handleQueryStmt edeps st user payload stmt

/-- `Server.handleAuth`: decode the credentials, validate, and on success
mark the session authenticated, append one `AUTH/USER/SUCCESS` audit
record and reply `"认证成功"`; on failure report an error without state
change. -/
def handleAuth (st : ServerState) (client : ClientState) (msg : SrvMessage) :
    Except String String × ClientState × ServerState :=
  match msg.payload with
  | .text _ => (.error "无效的认证数据", client, st)
  | .creds u p =>
    if validateUser st.userMgr u p then
      (.ok "认证成功", ⟨true, u⟩,
       { st with audit := st.audit ++
          [⟨auditINFO, u, "AUTH", "USER", "SUCCESS", "用户登录成功"⟩] })
    else (.error "认证失败", client, st)

/-- `Server.handleMessage`: an unauthenticated session may only send
`Auth` frames; otherwise dispatch on the frame type. -/
def handleMessage (pdeps : ParseDeps) (edeps : ExecDeps) (st : ServerState)
    (client : ClientState) (msg : SrvMessage) :
    Except String Reply × ClientState × ServerState :=
  if client.auth = false ∧ msg.mtype ≠ 0 then (.error "需要认证", client, st)
  else if msg.mtype = 0 then
    match handleAuth st client msg with
    | (.error e, c', st') => (.error e, c', st')
    | (.ok m, c', st') => (.ok (.result m), c', st')
  else if msg.mtype = 1 then
    match handleQuery pdeps edeps st client.user (payloadText msg.payload) with
    | (.error e, st') => (.error e, client, st')
    | (.ok _, st') => (.ok (.result ""), client, st')
  else (.error "未知的消息类型", client, st)

/-- One iteration of `Server.handleConnection`'s loop after a frame was
read: a `handleMessage` error becomes an `Error` frame with payload
`"错误: " ++ err` and the loop continues with the same session — only
socket I/O failures close a connection. -/
def connStep (pdeps : ParseDeps) (edeps : ExecDeps) (st : ServerState)
    (client : ClientState) (msg : SrvMessage) :
    Reply × ClientState × ServerState :=
  match handleMessage pdeps edeps st client msg with
  | (.ok rep, c', st') => (rep, c', st')
  | (.error e, c', st') => (.errorReply ("错误: " ++ e), c', st')

/-- Concrete external dependencies for witnesses: JSON/float parsing that
accepts nothing (never reached by the inputs used), and update/import
callees that succeed without touching the store. -/
def pdeps0 : ParseDeps := ⟨fun _ => none, fun _ => none, fun _ => none⟩

def edeps0 : ExecDeps := ⟨fun _ _ _ _ ms => .ok ms, fun _ _ ms => .ok ms⟩

/-- The user store after bootstrap (`NewUserManager` on a missing file
creates `root/123456` with role `admin`). -/
def bootUserState : UserState :=
  match createUser freshUserState "root" "123456" ["admin"] with
  | .ok um => um
  | .error _ => freshUserState

/-! ## C6: unauthenticated sessions -/

/-- C6 (confirmed): while a session is unauthenticated, any frame whose
type is not `Auth` is answered with the error `需要认证` (sent as an
`Error` frame with payload `错误: 需要认证`), the session stays open with
the same unauthenticated client state and the server state untouched; a
subsequent `Auth` frame with credentials accepted by `ValidateUser` on
the same session succeeds, marks the session authenticated and replies
`Result "认证成功"` (appending the one `AUTH` audit record). -/
theorem c6_unauthenticated_gate (pdeps : ParseDeps) (edeps : ExecDeps)
    (st : ServerState) (client : ClientState) (msg : SrvMessage)
    (hauth : client.auth = false) (hmsg : msg.mtype ≠ 0) :
    connStep pdeps edeps st client msg =
        (.errorReply "错误: 需要认证", client, st) ∧
      ∀ u p : String, validateUser st.userMgr u p = true →
        connStep pdeps edeps st client ⟨0, .creds u p⟩ =
          (.result "认证成功", ⟨true, u⟩,
           { st with audit := st.audit ++
              [⟨auditINFO, u, "AUTH", "USER", "SUCCESS", "用户登录成功"⟩] }) := by
  constructor
  · unfold connStep handleMessage
    rw [if_pos ⟨hauth, hmsg⟩]
    rfl
  · intro u p hvalid
    unfold connStep handleMessage
    rw [if_neg (by simp)]
    rw [if_pos rfl]
    unfold handleAuth
    simp only [hvalid, if_true]

/-- Witness for C6: a fresh session on a bootstrapped server sends a
`Query` frame, is told to authenticate, and then authenticates as
`root/123456`. -/
theorem c6_unauthenticated_gate_witness :
    connStep pdeps0 edeps0 ⟨⟨[], []⟩, bootUserState, []⟩ ⟨false, ""⟩
        ⟨1, .text "SHOW COLLECTIONS"⟩ =
      (.errorReply "错误: 需要认证", ⟨false, ""⟩, ⟨⟨[], []⟩, bootUserState, []⟩) ∧
      connStep pdeps0 edeps0 ⟨⟨[], []⟩, bootUserState, []⟩ ⟨false, ""⟩
          ⟨0, .creds "root" "123456"⟩ =
        (.result "认证成功", ⟨true, "root"⟩,
         ⟨⟨[], []⟩, bootUserState,
          [⟨auditINFO, "root", "AUTH", "USER", "SUCCESS", "用户登录成功"⟩]⟩) := by
  have h := c6_unauthenticated_gate pdeps0 edeps0 ⟨⟨[], []⟩, bootUserState, []⟩
    ⟨false, ""⟩ ⟨1, .text "SHOW COLLECTIONS"⟩ rfl (by decide)
  exact ⟨h.1, h.2 "root" "123456" (by decide)⟩

/-! ## C5: readonly role versus the server's resource mapping -/

/-- The user store after `CreateUser("bob", _, ["readonly"])` on a fresh
manager. -/
def bobUserState : UserState :=
  match createUser freshUserState "bob" "pw" ["readonly"] with
  | .ok um => um
  | .error _ => freshUserState

/-- A server holding the collection `myapp` with database `users` (both
in the collection manager and in the memory store), the user `bob` with
role `readonly`, and an empty audit log. -/
def c5State : ServerState :=
  ⟨⟨[("myapp", [("users", [])])],
    [("myapp", ⟨"myapp", "root", [("users", ⟨"users", "json", ""⟩)]⟩)]⟩,
   bobUserState, []⟩

/-- C5 (code bug): creating `bob` with role `readonly` succeeds and
`CREATE COLLECTION x` is answered `Error "错误: 权限不足"` as the claim
says — but `SELECT * FROM myapp.users` against the existing collection
and database is ALSO answered `Error "错误: 权限不足"` instead of a
`Result` frame: the server requests permission `SELECT` on a resource of
type `DATABASE`, while the readonly role only carries `SELECT` over
resource type `TABLE`, and `matchPermissionRule` requires the types to be
equal, so no readonly `SELECT` can ever succeed. -/
theorem c5_readonly_select_denied :
    (createUser freshUserState "bob" "pw" ["readonly"]).isOk = true ∧
      connStep pdeps0 edeps0 c5State ⟨true, "bob"⟩
          ⟨1, .text "CREATE COLLECTION x"⟩ =
        (.errorReply "错误: 权限不足", ⟨true, "bob"⟩, c5State) ∧
      connStep pdeps0 edeps0 c5State ⟨true, "bob"⟩
          ⟨1, .text "SELECT * FROM myapp.users"⟩ =
        (.errorReply "错误: 权限不足", ⟨true, "bob"⟩, c5State) := by
  refine ⟨by decide, by decide, by decide⟩

/-! ## C4: audit completeness -/

theorem permResourceOf_stype {stmt : Statement} {pr : String × Resource}
    (h : permResourceOf stmt = some pr) :
    stmt.stype ≠ "IMPORT" ∧ stmt.stype ≠ "UPDATE" := by
  constructor <;> intro hx <;> rw [permResourceOf, hx] at h <;>
    simp +decide at h

/-- C4 (amended): a Query dispatched through the permission-gated path
(`INSERT`, `SELECT`, `SHOW_COLLECTIONS`, `SHOW_DATABASES`,
`CREATE_COLLECTION`, `CREATE_DATABASE`, `EXPORT`) that passes the
permission check appends exactly one audit record, whose status is
`SUCCESS` on success and `FAILED` on execution failure; a permission
denial, an `UPDATE`, an `IMPORT` and an unknown statement type append no
record; every successful `Auth` appends exactly one `SUCCESS` record and
a failed `Auth` appends none. -/
theorem c4_audit_records_amended :
    (∀ (edeps : ExecDeps) (st : ServerState) (user payload : String)
        (stmt : Statement) (perm : String) (res : Resource),
      permResourceOf stmt = some (perm, res) →
        ((user = "root" ∨ umCheckPermission st.userMgr user perm res = true) →
          ∃ e : AuditEntry,
            (handleQueryStmt edeps st user payload stmt).2.audit =
                st.audit ++ [e] ∧
              ((handleQueryStmt edeps st user payload stmt).1 = .ok () →
                e.status = "SUCCESS") ∧
              ∀ msg, (handleQueryStmt edeps st user payload stmt).1 =
                  .error msg → e.status = "FAILED") ∧
        (user ≠ "root" → umCheckPermission st.userMgr user perm res = false →
          (handleQueryStmt edeps st user payload stmt).1 = .error "权限不足" ∧
            (handleQueryStmt edeps st user payload stmt).2.audit = st.audit)) ∧
      (∀ (edeps : ExecDeps) (st : ServerState) (user payload : String)
          (stmt : Statement),
        permResourceOf stmt = none →
          (handleQueryStmt edeps st user payload stmt).2.audit = st.audit) ∧
      (∀ (st : ServerState) (client : ClientState) (msg : SrvMessage)
          (u p : String),
        msg.payload = .creds u p →
          (validateUser st.userMgr u p = true →
            (handleAuth st client msg).2.2.audit = st.audit ++
              [⟨auditINFO, u, "AUTH", "USER", "SUCCESS", "用户登录成功"⟩]) ∧
          (validateUser st.userMgr u p = false →
            (handleAuth st client msg).2.2.audit = st.audit)) := by
  refine ⟨fun edeps st user payload stmt perm res hp => ?_,
    fun edeps st user payload stmt hp => ?_,
    fun st client msg u p hpay => ?_⟩
  · obtain ⟨hi, hu⟩ := permResourceOf_stype hp
    have hred : handleQueryStmt edeps st user payload stmt =
        (if user ≠ "root" ∧ umCheckPermission st.userMgr user perm res = false then
          (.error "权限不足", st)
        else
          match (executeQuery edeps stmt st.engine).1 with
          | .error e =>
            (.error e, { st with
              engine := (executeQuery edeps stmt st.engine).2,
              audit := st.audit ++
                [⟨auditERROR, user, perm, res.rtype ++ ":" ++ res.rname,
                  "FAILED", e⟩] })
          | .ok _ =>
            (.ok (), { st with
              engine := (executeQuery edeps stmt st.engine).2,
              audit := st.audit ++
                [⟨auditINFO, user, perm, res.rtype ++ ":" ++ res.rname,
                  "SUCCESS", "操作成功: " ++ payload⟩] })) := by
      unfold handleQueryStmt
      rw [if_neg hi, if_neg hu, hp]
    constructor
    · intro hallow
      have hcond :
          ¬(user ≠ "root" ∧ umCheckPermission st.userMgr user perm res = false) := by
        rcases hallow with h | h
        · exact fun hc => hc.1 h
        · exact fun hc => by rw [h] at hc; exact absurd hc.2 (by simp)
      rw [hred, if_neg hcond]
      cases hex : (executeQuery edeps stmt st.engine).1 with
      | error e =>
        exact ⟨⟨auditERROR, user, perm, res.rtype ++ ":" ++ res.rname,
          "FAILED", e⟩, rfl, fun h => by simp at h, fun msg _ => rfl⟩
      | ok v =>
        exact ⟨⟨auditINFO, user, perm, res.rtype ++ ":" ++ res.rname,
          "SUCCESS", "操作成功: " ++ payload⟩, rfl, fun _ => rfl,
          fun msg h => by simp at h⟩
    · intro hne hdenied
      rw [hred, if_pos ⟨hne, hdenied⟩]
      exact ⟨rfl, rfl⟩
  · by_cases hi : stmt.stype = "IMPORT"
    · unfold handleQueryStmt
      rw [if_pos hi]
      dsimp only
      split
      · rfl
      · split
        · rfl
        · split <;> rfl
    · by_cases hu : stmt.stype = "UPDATE"
      · unfold handleQueryStmt
        rw [if_neg hi, if_pos hu]
        dsimp only
        split <;> rfl
      · unfold handleQueryStmt
        rw [if_neg hi, if_neg hu, hp]
  · refine ⟨fun hvalid => ?_, fun hinvalid => ?_⟩
    · unfold handleAuth
      rw [hpay]
      simp only [hvalid, if_true]
    · unfold handleAuth
      rw [hpay]
      simp only [hinvalid, Bool.false_eq_true, if_false]

/-- C4 counterexample: on the server of C5's scenario, the readonly user
`bob` sends `CREATE COLLECTION x`; the query is rejected with `权限不足`
after a successful parse, and the audit log stays empty — no `FAILED`
record is written.  Likewise a successful `UPDATE` (executed inline,
bypassing the audit block) writes no record. -/
theorem c4_audit_records_counterexample :
    (handleQueryStmt edeps0 c5State "bob" "CREATE COLLECTION x"
        { emptyStmt with
          stype := "CREATE_COLLECTION", collection := "x", owner := "root" }).1 =
        .error "权限不足" ∧
      (handleQueryStmt edeps0 c5State "bob" "CREATE COLLECTION x"
        { emptyStmt with
          stype := "CREATE_COLLECTION", collection := "x", owner := "root" }).2.audit =
        [] ∧
      (handleQueryStmt edeps0 c5State "root" "UPDATE myapp.users SET a = 'b'"
        { emptyStmt with
          stype := "UPDATE", collection := "myapp", database := "users",
          data := [("a", .vStr "b")],
          filter := some [("k", .scalar (.vStr "v"))] }).1 = .ok () ∧
      (handleQueryStmt edeps0 c5State "root" "UPDATE myapp.users SET a = 'b'"
        { emptyStmt with
          stype := "UPDATE", collection := "myapp", database := "users",
          data := [("a", .vStr "b")],
          filter := some [("k", .scalar (.vStr "v"))] }).2.audit = [] := by
  refine ⟨by decide, by decide, by decide, by decide⟩

/-- Witness for the amended C4, applying it on the bootstrapped server:
root's `SHOW_COLLECTIONS` appends one record, an `UPDATE` appends none,
and root's successful `Auth` appends one record. -/
theorem c4_audit_records_amended_witness :
    (∃ e : AuditEntry,
      (handleQueryStmt edeps0 ⟨⟨[], []⟩, bootUserState, []⟩ "root" "SHOW COLLECTIONS"
          { emptyStmt with stype := "SHOW_COLLECTIONS" }).2.audit = [] ++ [e] ∧
        ((handleQueryStmt edeps0 ⟨⟨[], []⟩, bootUserState, []⟩ "root"
            "SHOW COLLECTIONS" { emptyStmt with stype := "SHOW_COLLECTIONS" }).1 =
          .ok () → e.status = "SUCCESS") ∧
        ∀ msg, (handleQueryStmt edeps0 ⟨⟨[], []⟩, bootUserState, []⟩ "root"
            "SHOW COLLECTIONS" { emptyStmt with stype := "SHOW_COLLECTIONS" }).1 =
          .error msg → e.status = "FAILED") ∧
      (handleQueryStmt edeps0 ⟨⟨[], []⟩, bootUserState, []⟩ "root" "u"
        { emptyStmt with stype := "UPDATE" }).2.audit = [] ∧
      (handleAuth ⟨⟨[], []⟩, bootUserState, []⟩ ⟨false, ""⟩
          ⟨0, .creds "root" "123456"⟩).2.2.audit =
        [] ++ [⟨auditINFO, "root", "AUTH", "USER", "SUCCESS", "用户登录成功"⟩] :=
  ⟨(c4_audit_records_amended.1 edeps0 ⟨⟨[], []⟩, bootUserState, []⟩ "root"
      "SHOW COLLECTIONS" { emptyStmt with stype := "SHOW_COLLECTIONS" }
      "SELECT" ⟨"DATABASE", "", ""⟩ (by decide)).1 (Or.inl rfl),
   c4_audit_records_amended.2.1 edeps0 ⟨⟨[], []⟩, bootUserState, []⟩ "root" "u"
     { emptyStmt with stype := "UPDATE" } (by decide),
   (c4_audit_records_amended.2.2 ⟨⟨[], []⟩, bootUserState, []⟩ ⟨false, ""⟩
     ⟨0, .creds "root" "123456"⟩ "root" "123456" rfl).1 (by decide)⟩

end Sudatas
